import Mathlib

/-!
Verification of the streaming chat-orchestration engine of an LLM front-end
gateway.  The Python services under `backend/app/services` are shallowly
embedded as pure Lean functions: JSON values become an inductive type,
Python dicts become association lists that preserve insertion order,
exceptions become `Option`/explicit error fields, and async generators
become functions producing the list of chunks they yield.
-/

/-- JSON values, the model of Python objects produced by `json.loads`. -/
inductive JVal where
  | null
  | bool (b : Bool)
  | num (n : Int)
  | str (s : String)
  | arr (xs : List JVal)
  | obj (fields : List (String × JVal))
deriving Repr

/-- Lookup of a key in a JSON object's field list (Python `d[k]` / `k in d`). -/
def lookupField : List (String × JVal) → String → Option JVal
  | [], _ => none
  | (k', v) :: rest, k => if k' = k then some v else lookupField rest k

/-- Field access on a JSON value: `some v` iff the value is an object with the key. -/
def JVal.getField : JVal → String → Option JVal
  | .obj fs, k => lookupField fs k
  | _, _ => none

/-- Extract a JSON string, the model of a field that the code concatenates onto a `str`. -/
def JVal.asStr : Option JVal → Option String
  | some (.str s) => some s
  | _ => none

/-- Python `s.split(sep, 1)` on character lists: split at the first `'_'`,
returning `none` when no separator occurs (the code guards with
`'_' not in function_name`). -/
def splitFirstUnderscore : List Char → Option (List Char × List Char)
  | [] => none
  | c :: cs =>
    if c = '_' then some ([], cs)
    else (splitFirstUnderscore cs).map (fun p => (c :: p.1, p.2))

/-- `function_name.split('_', 1)` at the `String` level
(`tool_schema_service.execute_tool_call`, lines 154-159). -/
def pySplitOnce (s : String) : Option (String × String) :=
  (splitFirstUnderscore s.data).map (fun p => (String.mk p.1, String.mk p.2))

/-- The qualified LLM function name `f"{tool_id}_{tool_name}"` built by
`_convert_mcp_tool_to_llm_schema` (line 101). -/
def qualifiedFunctionName (toolId toolName : String) : String :=
  toolId ++ "_" ++ toolName

/-- An entry of `MCPService.tools` as built by `_load_tool_from_directory`.
Only the fields consulted by `execute_tool_call` and `_get_mcp_client` are
kept; `server_path` is `some p` when the tool directory has a `server.py`
whose path exists (`os.path.exists` folded into the option). -/
structure ToolInfo where
  required_group : String
  server_path : Option String
deriving Repr, DecidableEq

/-- Lookup in a Python dict keyed by strings, preserving insertion order
(`self.tools.get(tool_id)`, `self.providers.get(provider_id)`). -/
def lookupStr {α : Type} : List (String × α) → String → Option α
  | [], _ => none
  | (k', v) :: rest, k => if k' = k then some v else lookupStr rest k

/-- The execution-result dict of `ToolSchemaService.execute_tool_call`:
`result` is present on the success path, `error` on the failure path. -/
structure ExecOutcome where
  success : Bool
  result : Option String
  error : Option String
  tool_id : String
  tool_name : String
deriving Repr, DecidableEq

/-- `ToolSchemaService.execute_tool_call` (lines 140-188): split the
qualified name on the first `'_'`, validate access via
`MCPService.validate_tool_access`, look the tool up, obtain its client and
invoke the server function.  `inGroup` embeds `is_user_in_group`;
`callTool tid fn args` embeds `client.call_tool(fn, args)` on the client of
tool `tid`, already rendered to the returned string
(`result.data if hasattr(result, 'data') else str(result)`).  Every raised
`ValueError` is caught by the function's own `except` block, which returns
the failure dict with `tool_name` set to the full `function_name`. -/
def executeToolCall (tools : List (String × ToolInfo))
    (inGroup : String → String → Bool)
    (callTool : String → String → JVal → String)
    (function_name : String) (arguments : JVal) (user_email : String) :
    ExecOutcome :=
  match pySplitOnce function_name with
  | none =>
      { success := false, result := none
        error := some ("Invalid function name format: " ++ function_name)
        tool_id := "unknown", tool_name := function_name }
  | some (tool_id, server_tool_name) =>
      let hasAccess :=
        match lookupStr tools tool_id with
        | none => false
        | some t => inGroup user_email t.required_group
      if hasAccess then
        match lookupStr tools tool_id with
        | none =>
            { success := false, result := none
              error := some ("Tool " ++ tool_id ++ " not found")
              tool_id := tool_id, tool_name := function_name }
        | some tinfo =>
            match tinfo.server_path with
            | none =>
                { success := false, result := none
                  error := some ("Server path not found for tool " ++ tool_id)
                  tool_id := tool_id, tool_name := function_name }
            | some _ =>
                { success := true
                  result := some (callTool tool_id server_tool_name arguments)
                  error := none
                  tool_id := tool_id, tool_name := server_tool_name }
      else
        { success := false, result := none
          error := some ("Access denied to tool " ++ tool_id)
          tool_id := tool_id, tool_name := function_name }

/-- A tool description returned by `client.list_tools()`; `inputSchema` is
the (dict-shaped) JSON schema of the function's parameters. -/
structure McpToolDesc where
  name : String
  description : Option String
  inputSchema : List (String × JVal)
deriving Repr

/-- `ToolSchemaService._convert_parameters_schema` (lines 118-138): default
an absent or empty schema to the empty object schema, and force the
presence of `type`, `properties` and `required` keys (a new key assigned to
a Python dict is appended at the end). -/
def convertParametersSchema (input_schema : List (String × JVal)) :
    List (String × JVal) :=
  match input_schema with
  | [] =>
      [("type", .str "object"), ("properties", .obj []), ("required", .arr [])]
  | fs =>
      let fs1 := if (lookupField fs "type").isNone
        then fs ++ [("type", .str "object")] else fs
      let fs2 := if (lookupField fs1 "properties").isNone
        then fs1 ++ [("properties", .obj [])] else fs1
      if (lookupField fs2 "required").isNone
        then fs2 ++ [("required", .arr [])] else fs2

/-- The LLM-facing function schema built by
`_convert_mcp_tool_to_llm_schema` (lines 87-116), with the `_mcp_metadata`
reverse-lookup block flattened into the last two fields. -/
structure LlmFunctionSchema where
  function_name : String
  description : String
  parameters : List (String × JVal)
  tool_id : String
  server_tool_name : String
deriving Repr

/-- `ToolSchemaService._convert_mcp_tool_to_llm_schema`: namespace the
function name as `f"{tool_id}_{tool_name}"`, defaulting a falsy description
(`'' or f"Tool from {tool_id} MCP server"`). -/
def convertMcpToolToLlmSchema (mcpTool : McpToolDesc) (tool_id : String) :
    LlmFunctionSchema :=
  let d := mcpTool.description.getD ""
  { function_name := qualifiedFunctionName tool_id mcpTool.name
    description := if d = "" then "Tool from " ++ tool_id ++ " MCP server" else d
    parameters := convertParametersSchema mcpTool.inputSchema
    tool_id := tool_id
    server_tool_name := mcpTool.name }

/-- One `tool_call_delta` element of a streamed `delta.tool_calls` array
(`_stream_openai`, lines 384-402): the index (`.get('index', 0)`) and the
optional fragment strings for id, function name and function arguments. -/
structure ToolCallDelta where
  index : Int
  idFrag : Option String
  nameFrag : Option String
  argsFrag : Option String
deriving Repr, DecidableEq

/-- An entry of `tool_calls_buffer` (lines 387-391). -/
structure ToolCallEntry where
  id : String
  type : String
  name : String
  arguments : String
deriving Repr, DecidableEq

/-- The fresh buffer entry `{'id': '', 'type': 'function',
'function': {'name': '', 'arguments': ''}}`. -/
def emptyToolCallEntry : ToolCallEntry :=
  { id := "", type := "function", name := "", arguments := "" }

/-- `tool_calls_buffer`, a Python dict keyed by the delta index, with
insertion order preserved (its `.values()` are executed in that order). -/
abbrev ToolCallBuffer := List (Int × ToolCallEntry)

/-- Dict lookup keyed by an integer index. -/
def lookupIdx {α : Type} : List (Int × α) → Int → Option α
  | [], _ => none
  | (k', v) :: rest, k => if k' = k then some v else lookupIdx rest k

/-- Dict assignment keyed by an integer index: in-place update of an
existing key, new keys appended at the end (Python dict semantics). -/
def setIdx {α : Type} : List (Int × α) → Int → α → List (Int × α)
  | [], k, v => [(k, v)]
  | (k', v') :: rest, k, v =>
      if k' = k then (k, v) :: rest else (k', v') :: setIdx rest k v

/-- The field-wise accumulation of lines 393-402: for each fragment that is
present in the delta, string-concatenate it onto the corresponding
accumulated field; absent fragments leave the field untouched. -/
def applyToolCallDelta (e : ToolCallEntry) (d : ToolCallDelta) : ToolCallEntry :=
  let e1 := match d.idFrag with
    | some s => { e with id := e.id ++ s }
    | none => e
  let e2 := match d.nameFrag with
    | some s => { e1 with name := e1.name ++ s }
    | none => e1
  match d.argsFrag with
  | some s => { e2 with arguments := e2.arguments ++ s }
  | none => e2

/-- Processing of one `tool_call_delta` (lines 385-402): create the entry
at `index` when absent, then accumulate the present fragments onto it. -/
def updateToolCallsBuffer (buf : ToolCallBuffer) (d : ToolCallDelta) :
    ToolCallBuffer :=
  let e0 := (lookupIdx buf d.index).getD emptyToolCallEntry
  setIdx buf d.index (applyToolCallDelta e0 d)

/-- Ordered concatenation of one fragment field over a list of deltas; a
delta without the field contributes the empty string. -/
def concatFrags (f : ToolCallDelta → Option String) : List ToolCallDelta → String
  | [] => ""
  | d :: rest => (f d).getD "" ++ concatFrags f rest

/-- Reading a `ToolCallDelta` off the JSON element of `delta.tool_calls`:
`index` via `.get('index', 0)`, the fragments via the `'id' in ...` /
`'function' in ...` membership tests of lines 394-402 (fragment values are
strings on the OpenAI wire format). -/
def toolCallDeltaOfJVal (tc : JVal) : ToolCallDelta :=
  { index := match tc.getField "index" with
      | some (.num n) => n
      | _ => 0
    idFrag := JVal.asStr (tc.getField "id")
    nameFrag := JVal.asStr ((tc.getField "function").bind (fun f => f.getField "name"))
    argsFrag := JVal.asStr ((tc.getField "function").bind (fun f => f.getField "arguments")) }

/-- Escaping of one character inside a JSON string literal, as
`json.dumps` renders it. -/
def jsonEscapeChar (c : Char) : List Char :=
  if c = '"' then ['\\', '"']
  else if c = '\\' then ['\\', '\\']
  else if c = '\n' then ['\\', 'n']
  else if c = '\r' then ['\\', 'r']
  else if c = '\t' then ['\\', 't']
  else [c]

/-- A JSON-quoted string literal. -/
def jsonQuote (s : String) : String :=
  "\"" ++ String.mk (s.data.foldr (fun c acc => jsonEscapeChar c ++ acc) []) ++ "\""

mutual

/-- `json.dumps` with the default separators, used when streaming the
arguments of a tool call back to the user (line 443). -/
def jsonDumps : JVal → String
  | .null => "null"
  | .bool true => "true"
  | .bool false => "false"
  | .num n => toString n
  | .str s => jsonQuote s
  | .arr xs => "[" ++ jsonDumpsArr xs ++ "]"
  | .obj fs => "\x7b" ++ jsonDumpsObj fs ++ "\x7d"

/-- Comma-separated rendering of a JSON array body. -/
def jsonDumpsArr : List JVal → String
  | [] => ""
  | [x] => jsonDumps x
  | x :: rest => jsonDumps x ++ ", " ++ jsonDumpsArr rest

/-- Comma-separated rendering of a JSON object body. -/
def jsonDumpsObj : List (String × JVal) → String
  | [] => ""
  | [(k, v)] => jsonQuote k ++ ": " ++ jsonDumps v
  | (k, v) :: rest => jsonQuote k ++ ": " ++ jsonDumps v ++ ", " ++ jsonDumpsObj rest

end

/-- A tool call of the buffer whose arguments string parsed as JSON
(`_execute_and_stream_tool_calls`, lines 418-426). -/
structure ParsedToolCall where
  function_name : String
  arguments : JVal
deriving Repr

/-- The error chunk yielded for a buffered call whose arguments string is
not valid JSON (line 428). -/
def invalidArgsLine (name : String) : String :=
  "\n\n🚫 **Error**: Invalid tool arguments for " ++ name ++ "\n\n"

/-- The conversion loop of lines 418-429: each buffered call either joins
the list of executable calls or contributes an error chunk, in buffer
order; a parse failure never stops the loop (`continue`). -/
def parseToolCallsPhase (loads : String → Option JVal) :
    List ToolCallEntry → List String × List ParsedToolCall
  | [] => ([], [])
  | e :: rest =>
      let (errs, calls) := parseToolCallsPhase loads rest
      match loads e.arguments with
      | some args => (errs, ⟨e.name, args⟩ :: calls)
      | none => (invalidArgsLine e.name :: errs, calls)

/-- The chunk announcing how many calls will be executed (line 435). -/
def headerLine (n : Nat) : String :=
  "\n\n🔧 **Executing " ++ toString n ++ " tool call(s):**\n"

/-- The per-call result chunk (lines 449-453): success shows
`result.get('result', 'Success')`, failure shows
`result.get('error', 'Unknown error')`. -/
def toolResultLine (r : ExecOutcome) : String :=
  if r.success then "**✅ Result:** " ++ r.result.getD "Success" ++ "\n"
  else "**❌ Error:** " ++ r.error.getD "Unknown error" ++ "\n"

/-- The chunk naming the i-th executed tool call (line 442). -/
def toolTitleLine (i : Nat) (name : String) : String :=
  "\n**" ++ toString i ++ ". Tool:** `" ++ name ++ "`\n"

/-- The chunk showing the call's arguments (line 443). -/
def toolArgsLine (args : JVal) : String :=
  "**Arguments:** `" ++ jsonDumps args ++ "`\n"

/-- The execution loop of lines 437-456, with 1-based numbering from
`enumerate(tool_calls, 1)`; `execCall` embeds
`tool_schema_service.execute_tool_call`, which never raises (it catches its
own exceptions), so the surrounding `try` adds nothing. -/
def execLoop (execCall : String → JVal → ExecOutcome) :
    Nat → List ParsedToolCall → List String
  | _, [] => []
  | i, c :: rest =>
      toolTitleLine i c.function_name
        :: toolArgsLine c.arguments
        :: toolResultLine (execCall c.function_name c.arguments)
        :: execLoop execCall (i + 1) rest

/-- `LLMService._execute_and_stream_tool_calls` (lines 414-458): the
chunks yielded for a buffer of accumulated tool calls.  `loads` embeds
`json.loads` on the arguments strings (`none` models `JSONDecodeError`). -/
def executeAndStreamToolCalls (loads : String → Option JVal)
    (execCall : String → JVal → ExecOutcome) (buf : ToolCallBuffer) :
    List String :=
  let parsed := parseToolCallsPhase loads (buf.map Prod.snd)
  if parsed.2.isEmpty then parsed.1
  else
    parsed.1 ++ headerLine parsed.2.length :: execLoop execCall 1 parsed.2
      ++ ["\n**Tool execution completed.**\n\n"]

/-- Python `line.startswith(pre)` over character lists. -/
def startsWithChars : List Char → List Char → Bool
  | _, [] => true
  | [], _ :: _ => false
  | c :: cs, p :: ps => c = p && startsWithChars cs ps

/-- Python `line.startswith(pre)`. -/
def pyStartsWith (s pre : String) : Bool := startsWithChars s.data pre.data

/-- Python `s[n:]` for a non-negative `n`. -/
def pyDrop (s : String) (n : Nat) : String := String.mk (s.data.drop n)

/-- The whitespace characters stripped by Python `str.strip()`. -/
def isPySpace (c : Char) : Bool :=
  c = ' ' || c = '\t' || c = '\n' || c = '\r' || c = '\x0b' || c = '\x0c'

/-- Python `s.strip()`. -/
def pyStrip (s : String) : String :=
  String.mk (((s.data.dropWhile isPySpace).reverse.dropWhile isPySpace).reverse)

/-- Processing of one decoded SSE event (lines 375-409): yield
`delta.content` when present, accumulate every `delta.tool_calls` element
into the buffer, then — when `finish_reason == 'tool_calls'` and the buffer
is non-empty — yield the tool-execution chunks.  Events without a
non-empty `choices` array are ignored. -/
def processOpenAIEvent (loads : String → Option JVal)
    (execCall : String → JVal → ExecOutcome) (data : JVal)
    (buf : ToolCallBuffer) : List JVal × ToolCallBuffer :=
  match data.getField "choices" with
  | some (.arr (choice :: _)) =>
      let delta := (choice.getField "delta").getD (.obj [])
      let contentOut := match delta.getField "content" with
        | some c => [c]
        | none => []
      let buf1 := match delta.getField "tool_calls" with
        | some (.arr tcs) =>
            tcs.foldl (fun b tc => updateToolCallsBuffer b (toolCallDeltaOfJVal tc)) buf
        | _ => buf
      let toolOut := match choice.getField "finish_reason" with
        | some (.str r) =>
            if r = "tool_calls" ∧ ¬ buf1.isEmpty then
              (executeAndStreamToolCalls loads execCall buf1).map JVal.str
            else []
        | _ => []
      (contentOut ++ toolOut, buf1)
  | _ => ([], buf)

/-- The SSE line loop of `LLMService._stream_openai` (lines 361-412):
lines without the `data: ` prefix are ignored, the `[DONE]` sentinel breaks
the loop, a payload that fails `json.loads` is skipped (`continue`), and
any other payload is processed with the threaded tool-call buffer.  The
yielded chunks are the raw JSON values of `delta.content` plus the
tool-execution strings. -/
def streamOpenaiLoop (loads : String → Option JVal)
    (execCall : String → JVal → ExecOutcome) :
    List String → ToolCallBuffer → List JVal
  | [], _ => []
  | line :: rest, buf =>
      if pyStartsWith line "data: " then
        if pyStrip (pyDrop line 6) = "[DONE]" then []
        else
          match loads (pyDrop line 6) with
          | none => streamOpenaiLoop loads execCall rest buf
          | some data =>
              let step := processOpenAIEvent loads execCall data buf
              step.1 ++ streamOpenaiLoop loads execCall rest step.2
      else streamOpenaiLoop loads execCall rest buf

/-- `_stream_openai` over the full sequence of response lines, starting
from the empty `tool_calls_buffer` (line 361). -/
def streamOpenai (loads : String → Option JVal)
    (execCall : String → JVal → ExecOutcome) (lines : List String) :
    List JVal :=
  streamOpenaiLoop loads execCall lines []

/-- The decoded JSON tree of an OpenAI SSE content event
`{"choices":[{"delta":{"content": s}}]}`. -/
def openaiContentEvent (s : String) : JVal :=
  .obj [("choices", .arr [.obj [("delta", .obj [("content", .str s)])]])]

/-- The outcome of one underlying streaming request of a provider adapter
(`_stream_openai` and its siblings): the chunks yielded before the stream
either ends normally (`failure = none`) or raises an exception carrying
`str(e)` (`failure = some msg`) — non-2xx `raise_for_status`, connection
reset mid-stream, or an unsupported-provider `ValueError`. -/
structure StreamAttempt where
  chunks : List String
  failure : Option String
deriving Repr, DecidableEq

/-- `LLMService._real_llm_stream` (lines 280-299): forward every chunk of
the underlying adapter; its `except` block converts any exception into the
single final chunk `f"Error: {str(e)}"`, after which the generator ends.
The embedding is a total function into a chunk list: no exception escapes
this boundary. -/
def realLlmStream (attempt : StreamAttempt) : List String :=
  attempt.chunks ++
    match attempt.failure with
    | some msg => ["Error: " ++ msg]
    | none => []

/-- An entry of `LLMService.providers` as loaded from the models config,
restricted to the fields the embedded operations consult. -/
structure ProviderInfo where
  provider : String
  available : Bool
  required_group : String
deriving Repr, DecidableEq

/-- `LLMService.generate_response_stream` (lines 202-234): an unknown
provider id or a failed access check raises a `ValueError` that its own
`except` turns into a single `Error: ...` chunk; the `test` family streams
the mock response (`mockChunks`); every real family delegates to
`_real_llm_stream`. -/
def generateResponseStream (providers : List (String × ProviderInfo))
    (inGroup : String → String → Bool) (provider_id user_email : String)
    (mockChunks : List String) (attempt : StreamAttempt) : List String :=
  match lookupStr providers provider_id with
  | none => ["Error: Provider " ++ provider_id ++ " not found"]
  | some p =>
      if inGroup user_email p.required_group && p.available then
        if p.provider = "test" then mockChunks else realLlmStream attempt
      else ["Error: Access denied to provider " ++ provider_id]

/-- The dict returned by `LLMService.validate_provider_access`. -/
structure AccessValidation where
  provider_id : String
  has_access : Bool
  reason : String
deriving Repr, DecidableEq

/-- `LLMService.validate_provider_access` (lines 145-169): `has_access` is
the conjunction of group membership and the availability flag, while
`reason` is chosen by group membership alone. -/
def validateProviderAccess (providers : List (String × ProviderInfo))
    (inGroup : String → String → Bool) (provider_id user_email : String) :
    AccessValidation :=
  match lookupStr providers provider_id with
  | none => { provider_id := provider_id, has_access := false, reason := "Provider not found" }
  | some p =>
      let has_access := inGroup user_email p.required_group
      { provider_id := provider_id
        has_access := has_access && p.available
        reason := if has_access then "Access granted"
          else "Requires group: " ++ p.required_group }

/-- One stored chat turn (`_store_chat_entry`, lines 226-232); the
timestamp produced by `datetime.now().isoformat()` is an input here. -/
structure ChatTurn where
  timestamp : String
  user_message : String
  assistant_response : String
  provider : String
  tools_used : List String
deriving Repr, DecidableEq

/-- `ChatService.chat_history`: a dict from user email to the ordered
per-user log. -/
abbrev ChatHistory := List (String × List ChatTurn)

/-- `self.chat_history.get(user_email, [])`, also the state of a user
after `if user_email not in self.chat_history: ... = []`. -/
def getUserLog (h : ChatHistory) (user : String) : List ChatTurn :=
  (lookupStr h user).getD []

/-- Dict assignment `self.chat_history[user_email] = log`. -/
def setUserLog : ChatHistory → String → List ChatTurn → ChatHistory
  | [], user, log => [(user, log)]
  | (u, l) :: rest, user, log =>
      if u = user then (user, log) :: rest else (u, l) :: setUserLog rest user log

/-- The last `n` elements of a list, Python `l[-n:]` for `0 < n`. -/
def takeLast {α : Type} (n : Nat) (l : List α) : List α :=
  l.drop (l.length - n)

/-- The per-user part of `ChatService._store_chat_entry` (lines 215-237):
append the entry, then cap the log to `[-100:]` when it exceeds 100. -/
def storeChatEntryLog (log : List ChatTurn) (e : ChatTurn) : List ChatTurn :=
  let log1 := log ++ [e]
  if 100 < log1.length then takeLast 100 log1 else log1

/-- `ChatService._store_chat_entry` on the history dict. -/
def storeChatEntry (h : ChatHistory) (user : String) (e : ChatTurn) :
    ChatHistory :=
  setUserLog h user (storeChatEntryLog (getUserLog h user) e)

/-- Python slice `l[-k:]` for an arbitrary integer `k` (slice start `-k`,
clamped to the list bounds as Python does). -/
def pySliceLast {α : Type} (k : Int) (l : List α) : List α :=
  let n : Int := l.length
  let s : Int := -k
  let start := if s < 0 then max (n + s) 0 else min s n
  l.drop start.toNat

/-- `ChatService.get_chat_history` (lines 239-245):
`history[-limit:] if limit else history` — any non-zero `limit` slices,
`limit = 0` is falsy and returns the whole log. -/
def getChatHistory (h : ChatHistory) (user : String) (limit : Int) :
    List ChatTurn :=
  let history := getUserLog h user
  if limit ≠ 0 then pySliceLast limit history else history

/-- The chat history of the `ChatService()` freshly constructed by the
REST dependency `get_chat_service` / inside the `/history` handler
(`api/chat.py` lines 22-23 and 68): `self.chat_history = {}`. -/
def freshChatServiceHistory : ChatHistory := []

/-- The REST endpoint `GET /history` (`api/chat.py` lines 61-73): it
constructs a brand-new `ChatService` and queries that instance. -/
def apiGetChatHistory (user_email : String) (limit : Int) : List ChatTurn :=
  getChatHistory freshChatServiceHistory user_email limit

/-- The scheduling phases of one task executing
`MCPService._get_mcp_client` (lines 280-298) for a fixed tool id.  asyncio
switches tasks only at `await`, so the function body splits into two atomic
segments: `ready` = about to run the `tool_id not in self.mcp_clients`
check (returning the cached client when the check fails), `connecting` =
suspended inside `await client.__aenter__()`, whose completion establishes
the connection and stores the client. -/
inductive TaskPhase where
  | ready
  | connecting
  | finished
deriving Repr, DecidableEq

/-- The shared state of the client pool for one tool id, plus each task's
phase: `cachedClient` is `self.mcp_clients[tool_id]` (the stored client is
identified by the index of the task that created it), `connectCount` counts
connection establishments against the underlying transport. -/
structure PoolState where
  cachedClient : Option Nat
  connectCount : Nat
  phases : Nat → TaskPhase

/-- All tasks about to enter `_get_mcp_client`, no client cached yet. -/
def initPoolState : PoolState :=
  { cachedClient := none, connectCount := 0, phases := fun _ => .ready }

/-- Pointwise phase update. -/
def setPhase (f : Nat → TaskPhase) (t : Nat) (p : TaskPhase) : Nat → TaskPhase :=
  fun i => if i = t then p else f i

/-- Run the next atomic segment of task `t`: the unguarded
check-then-create of `_get_mcp_client` — a `ready` task that sees an empty
cache proceeds to connect; its resumption establishes the connection,
increments the transport connect count and stores its client (overwriting
any client another task stored meanwhile). -/
def poolStep (σ : PoolState) (t : Nat) : PoolState :=
  match σ.phases t with
  | .ready =>
      if σ.cachedClient.isSome then { σ with phases := setPhase σ.phases t .finished }
      else { σ with phases := setPhase σ.phases t .connecting }
  | .connecting =>
      { cachedClient := some t, connectCount := σ.connectCount + 1
        phases := setPhase σ.phases t .finished }
  | .finished => σ

/-- Execute a schedule: a list of task indices, each entry running that
task's next atomic segment. -/
def runPoolSchedule (sched : List Nat) : PoolState :=
  sched.foldl poolStep initPoolState

/-- The schedule where `n` concurrent first-uses all perform their cache
check before any connection completes (every check precedes every
resumption). -/
def interleavedSchedule (n : Nat) : List Nat :=
  List.range n ++ List.range n

/-- The schedule where each of the `n` calls runs to completion before the
next one starts. -/
def serializedSchedule (n : Nat) : List Nat :=
  (List.range n).flatMap (fun i => [i, i])

/-! ### Concrete fixtures used by counterexamples and witnesses -/

/-- The repository's own `mcp/linear_regression` tool server, registered
under the directory-derived id `linear_regression`
(`_load_tool_from_directory`, line 64: `tool_config.get('id', tool_dir.name)`). -/
def lrRegistry : List (String × ToolInfo) :=
  [("linear_regression", { required_group := "default", server_path := some "mcp/linear_regression/server.py" })]

/-- A one-tool registry whose id has no underscore. -/
def ddgRegistry : List (String × ToolInfo) :=
  [("ddg", { required_group := "default", server_path := some "mcp/ddg_search/server.py" })]

/-- A sample stored chat turn. -/
def sampleTurn : ChatTurn :=
  { timestamp := "2025-01-01T00:00:00", user_message := "hello"
    assistant_response := "hi there", provider := "test-gpt4", tools_used := [] }

/-- A chat history holding one turn for one user. -/
def sampleHistory : ChatHistory := [("alice@example.com", [sampleTurn])]

/-- The JSON payload of the first SSE event of the C6 scenario. -/
def ssePayloadHel : String :=
  "\x7b\"choices\":[\x7b\"delta\":\x7b\"content\":\"Hel\"\x7d\x7d]\x7d"

/-- The JSON payload of the second SSE event of the C6 scenario. -/
def ssePayloadLo : String :=
  "\x7b\"choices\":[\x7b\"delta\":\x7b\"content\":\"lo\"\x7d\x7d]\x7d"

/-- The literal SSE lines of the C6 scenario. -/
def sseHelLine : String := "data: " ++ ssePayloadHel

/-- Second literal SSE line of the C6 scenario. -/
def sseLoLine : String := "data: " ++ ssePayloadLo

/-- The terminal sentinel line. -/
def sseDoneLine : String := "data: [DONE]"

/-! ### Proofs -/

example : pySplitOnce "abc" = none := by decide
example : pySplitOnce "a_b_c" = some ("a", "b_c") := by decide
example : qualifiedFunctionName "ddg" "search" = "ddg_search" := by decide
example : pySplitOnce (qualifiedFunctionName "linear_regression" "predict")
    = some ("linear", "regression_predict") := by decide

lemma splitFirstUnderscore_append (t f : List Char) (h : '_' ∉ t) :
    splitFirstUnderscore (t ++ '_' :: f) = some (t, f) := by
  induction t with
  | nil => simp [splitFirstUnderscore]
  | cons c cs ih =>
      simp only [List.mem_cons, not_or] at h
      simp [splitFirstUnderscore, Ne.symm h.1, ih h.2]

lemma data_qualifiedFunctionName (t f : String) :
    (qualifiedFunctionName t f).data = t.data ++ '_' :: f.data := by
  cases t with
  | mk td =>
      cases f with
      | mk fd => simp [qualifiedFunctionName, String.append]

lemma pySplitOnce_qualifiedFunctionName (t f : String) (h : '_' ∉ t.data) :
    pySplitOnce (qualifiedFunctionName t f) = some (t, f) := by
  simp [pySplitOnce, data_qualifiedFunctionName, splitFirstUnderscore_append _ _ h]

lemma qualifiedFunctionName_ne (t₁ t₂ f : String) (h : t₁ ≠ t₂) :
    qualifiedFunctionName t₁ f ≠ qualifiedFunctionName t₂ f := by
  intro hEq
  apply h
  have hd : (qualifiedFunctionName t₁ f).data = (qualifiedFunctionName t₂ f).data := by
    rw [hEq]
  rw [data_qualifiedFunctionName, data_qualifiedFunctionName] at hd
  have hdata := List.append_inj_left' hd (by rfl)
  cases t₁ with
  | mk d₁ =>
      cases t₂ with
      | mk d₂ => exact congrArg String.mk hdata

/-- Claim C1, counterexample: the round-trip fails as stated.  The
repository registers its `mcp/linear_regression` server under the id
`linear_regression`, which contains the separator; `execute_tool_call`
splits the qualified name `linear_regression_predict` at the FIRST
underscore into `("linear", "regression_predict")`, so the call is routed
to the non-existent tool `linear` and fails instead of reaching
`(linear_regression, predict)`. -/
theorem c1_roundtrip_counterexample :
    pySplitOnce (qualifiedFunctionName "linear_regression" "predict")
      ≠ some ("linear_regression", "predict")
    ∧ (executeToolCall lrRegistry (fun _ _ => true) (fun _ _ _ => "ok")
        (qualifiedFunctionName "linear_regression" "predict") .null
        "user@example.com").tool_id = "linear"
    ∧ (executeToolCall lrRegistry (fun _ _ => true) (fun _ _ _ => "ok")
        (qualifiedFunctionName "linear_regression" "predict") .null
        "user@example.com").success = false := by
  refine ⟨by decide, by decide, by decide⟩

/-- Claim C1 (amended): for every registered server-backed tool id `t`
that does not contain the separator `'_'` and every server function name,
the schema builder produces the qualified name `t ++ "_" ++ fn`,
`execute_tool_call` splits that name back into exactly `(t, fn)` and routes
the call to tool `t` and server function `fn`; and for any two distinct
tool ids the qualified names built from the same function name are
distinct (this part needs no underscore restriction). -/
theorem c1_roundtrip_amended
    (t₁ t₂ f t fn user p : String) (mt : McpToolDesc)
    (tools : List (String × ToolInfo)) (tinfo : ToolInfo)
    (inGroup : String → String → Bool)
    (callTool : String → String → JVal → String) (args : JVal)
    (hne : t₁ ≠ t₂)
    (hu : '_' ∉ t.data)
    (hlook : lookupStr tools t = some tinfo)
    (hgrp : inGroup user tinfo.required_group = true)
    (hpath : tinfo.server_path = some p) :
    (convertMcpToolToLlmSchema mt t).function_name = qualifiedFunctionName t mt.name
    ∧ qualifiedFunctionName t₁ f ≠ qualifiedFunctionName t₂ f
    ∧ pySplitOnce (qualifiedFunctionName t fn) = some (t, fn)
    ∧ executeToolCall tools inGroup callTool (qualifiedFunctionName t fn) args user
        = { success := true, result := some (callTool t fn args), error := none
            tool_id := t, tool_name := fn } := by
  refine ⟨rfl, qualifiedFunctionName_ne _ _ _ hne,
    pySplitOnce_qualifiedFunctionName _ _ hu, ?_⟩
  simp [executeToolCall, pySplitOnce_qualifiedFunctionName _ _ hu, hlook, hgrp, hpath]

/-- Witness for the amended C1 at a concrete two-server registry. -/
theorem c1_roundtrip_witness :
    qualifiedFunctionName "ddg" "search" ≠ qualifiedFunctionName "fs" "search"
    ∧ pySplitOnce (qualifiedFunctionName "ddg" "search") = some ("ddg", "search")
    ∧ executeToolCall ddgRegistry (fun _ _ => true)
        (fun tid fname _ => tid ++ "." ++ fname)
        (qualifiedFunctionName "ddg" "search") .null "user@example.com"
        = { success := true, result := some "ddg.search", error := none
            tool_id := "ddg", tool_name := "search" } := by
  have h := c1_roundtrip_amended "ddg" "fs" "search" "ddg" "search"
    "user@example.com" "mcp/ddg_search/server.py"
    { name := "search", description := none, inputSchema := [] }
    ddgRegistry
    { required_group := "default", server_path := some "mcp/ddg_search/server.py" }
    (fun _ _ => true) (fun tid fname _ => tid ++ "." ++ fname) .null
    (by decide) (by decide) (by decide) (by decide) (by decide)
  exact ⟨h.2.1, h.2.2.1, h.2.2.2⟩

lemma lookupIdx_setIdx_self {α : Type} (buf : List (Int × α)) (i : Int) (v : α) :
    lookupIdx (setIdx buf i v) i = some v := by
  induction buf with
  | nil => simp [setIdx, lookupIdx]
  | cons kv rest ih =>
      obtain ⟨k, v'⟩ := kv
      by_cases h : k = i
      · simp [setIdx, h, lookupIdx]
      · simp [setIdx, h, lookupIdx, ih]

lemma strAppend_assoc (a b c : String) : a ++ b ++ c = a ++ (b ++ c) := by
  cases a with
  | mk da =>
      cases b with
      | mk db =>
          cases c with
          | mk dc => exact congrArg String.mk (List.append_assoc da db dc)

lemma strAppend_right_empty (s : String) : s ++ "" = s := by
  cases s with
  | mk d => exact congrArg String.mk (List.append_nil d)

lemma strEmpty_append (s : String) : "" ++ s = s := by
  cases s with
  | mk d => rfl

lemma applyToolCallDelta_eq (e : ToolCallEntry) (d : ToolCallDelta) :
    applyToolCallDelta e d =
      { id := e.id ++ d.idFrag.getD "", type := e.type
        name := e.name ++ d.nameFrag.getD ""
        arguments := e.arguments ++ d.argsFrag.getD "" } := by
  obtain ⟨a, b, c, dd⟩ := e
  obtain ⟨i, idf, nmf, arf⟩ := d
  cases idf <;> cases nmf <;> cases arf <;>
    simp [applyToolCallDelta, strAppend_right_empty]

lemma foldl_updateBuffer_lookup (i : Int) (ds : List ToolCallDelta) :
    ∀ (buf : ToolCallBuffer) (e : ToolCallEntry),
      lookupIdx buf i = some e → (∀ d ∈ ds, d.index = i) →
      lookupIdx (ds.foldl updateToolCallsBuffer buf) i =
        some { id := e.id ++ concatFrags ToolCallDelta.idFrag ds
               type := e.type
               name := e.name ++ concatFrags ToolCallDelta.nameFrag ds
               arguments := e.arguments ++ concatFrags ToolCallDelta.argsFrag ds } := by
  induction ds with
  | nil =>
      intro buf e he _
      simpa [concatFrags, strAppend_right_empty] using he
  | cons d ds ih =>
      intro buf e he hall
      have hd : d.index = i := hall d (by simp)
      have hstep : lookupIdx (updateToolCallsBuffer buf d) i
          = some (applyToolCallDelta e d) := by
        simp [updateToolCallsBuffer, hd, he, lookupIdx_setIdx_self]
      have hrec := ih (updateToolCallsBuffer buf d) (applyToolCallDelta e d)
        hstep (fun d' hd' => hall d' (by simp [hd']))
      rw [List.foldl_cons, hrec, applyToolCallDelta_eq]
      simp [concatFrags, strAppend_assoc]

/-- Claim C2: for every sequence of tool-call delta events carrying the
same index, after the stream is consumed the accumulated `arguments`
string at that index equals the concatenation, in arrival order, of every
event's arguments fragment — and likewise for the `id` and `name` fields.
Fragments are merged by concatenation, never overwritten, so any split of
the same text over any number of events yields the same final strings. -/
theorem c2_accumulator_merge (i : Int) (ds : List ToolCallDelta)
    (hall : ∀ d ∈ ds, d.index = i) (hne : ds ≠ []) :
    lookupIdx (ds.foldl updateToolCallsBuffer []) i =
      some { id := concatFrags ToolCallDelta.idFrag ds
             type := "function"
             name := concatFrags ToolCallDelta.nameFrag ds
             arguments := concatFrags ToolCallDelta.argsFrag ds } := by
  cases ds with
  | nil => exact absurd rfl hne
  | cons d ds =>
      have hd : d.index = i := hall d (by simp)
      have hstep : lookupIdx (updateToolCallsBuffer [] d) i
          = some (applyToolCallDelta emptyToolCallEntry d) := by
        simp [updateToolCallsBuffer, hd, lookupIdx, lookupIdx_setIdx_self]
      have hrec := foldl_updateBuffer_lookup i ds _ _ hstep
        (fun d' h => hall d' (by simp [h]))
      rw [List.foldl_cons, hrec, applyToolCallDelta_eq]
      simp [concatFrags, emptyToolCallEntry, strEmpty_append]

/-- Witness for C2: two deltas at index 2, the second without an id
fragment, accumulate to the concatenated strings. -/
theorem c2_accumulator_merge_witness :
    (∀ d ∈ ([{ index := 2, idFrag := some "id", nameFrag := some "na", argsFrag := some "arg1" },
              { index := 2, idFrag := none, nameFrag := some "me", argsFrag := some "ument" }] :
        List ToolCallDelta), d.index = 2)
    ∧ lookupIdx
        (([{ index := 2, idFrag := some "id", nameFrag := some "na", argsFrag := some "arg1" },
           { index := 2, idFrag := none, nameFrag := some "me", argsFrag := some "ument" }] :
          List ToolCallDelta).foldl updateToolCallsBuffer []) 2 =
        some { id := "id", type := "function", name := "name", arguments := "arg1ument" } := by
  refine ⟨by decide, ?_⟩
  rw [c2_accumulator_merge 2 _ (by decide) (by decide)]
  decide

lemma takeLast_length_le {α : Type} (n : Nat) (l : List α) :
    (takeLast n l).length ≤ n := by
  simp [takeLast]
  omega

lemma takeLast_takeLast_append {α : Type} (n : Nat) (l m : List α) :
    takeLast n (takeLast n l ++ m) = takeLast n (l ++ m) := by
  rcases Nat.le_total l.length n with h | h
  · have h0 : l.length - n = 0 := by omega
    simp [takeLast, h0]
  · have hle : l.length - n ≤ l.length := Nat.sub_le _ _
    simp only [takeLast, List.length_append, List.length_drop]
    rw [← List.drop_append_of_le_length hle, List.drop_drop]
    congr 1
    omega

lemma storeChatEntryLog_eq_takeLast (log : List ChatTurn) (e : ChatTurn) :
    storeChatEntryLog log e = takeLast 100 (log ++ [e]) := by
  simp only [storeChatEntryLog]
  by_cases h1 : 100 < (log ++ [e]).length
  · rw [if_pos h1]
  · rw [if_neg h1, takeLast]
    have h0 : (log ++ [e]).length - 100 = 0 := by omega
    rw [h0, List.drop_zero]

lemma storeChatEntryLog_length (log : List ChatTurn) (e : ChatTurn) :
    (storeChatEntryLog log e).length ≤ 100 := by
  rw [storeChatEntryLog_eq_takeLast]
  exact takeLast_length_le _ _

lemma foldl_storeChatEntryLog (es : List ChatTurn) :
    ∀ log, log.length ≤ 100 →
      es.foldl storeChatEntryLog log = takeLast 100 (log ++ es) := by
  induction es with
  | nil =>
      intro log h
      have h0 : log.length - 100 = 0 := by omega
      simp [takeLast, h0]
  | cons e es ih =>
      intro log h
      rw [List.foldl_cons, ih _ (storeChatEntryLog_length _ _),
        storeChatEntryLog_eq_takeLast, takeLast_takeLast_append]
      simp

lemma lookupStr_setUserLog_self (h : ChatHistory) (u : String)
    (l : List ChatTurn) : lookupStr (setUserLog h u l) u = some l := by
  induction h with
  | nil => simp [setUserLog, lookupStr]
  | cons kv rest ih =>
      obtain ⟨u', l'⟩ := kv
      by_cases hu : u' = u
      · subst hu
        simp [setUserLog, lookupStr]
      · simp [setUserLog, hu, lookupStr, ih]

lemma lookupStr_setUserLog_other (h : ChatHistory) (u v : String)
    (l : List ChatTurn) (hne : v ≠ u) :
    lookupStr (setUserLog h u l) v = lookupStr h v := by
  have hne' : ¬ (u = v) := fun hh => hne hh.symm
  induction h with
  | nil => simp [setUserLog, lookupStr, hne']
  | cons kv rest ih =>
      obtain ⟨u', l'⟩ := kv
      by_cases hu : u' = u
      · subst hu
        simp [setUserLog, lookupStr, hne']
      · simp [setUserLog, hu, lookupStr, ih]

lemma getUserLog_setUserLog_self (h : ChatHistory) (u : String)
    (l : List ChatTurn) : getUserLog (setUserLog h u l) u = l := by
  rw [getUserLog, lookupStr_setUserLog_self]
  rfl

lemma getUserLog_setUserLog_other (h : ChatHistory) (u v : String)
    (l : List ChatTurn) (hne : v ≠ u) :
    getUserLog (setUserLog h u l) v = getUserLog h v := by
  rw [getUserLog, getUserLog, lookupStr_setUserLog_other _ _ _ _ hne]

lemma getUserLog_storeChatEntry_self (h : ChatHistory) (u : String)
    (e : ChatTurn) :
    getUserLog (storeChatEntry h u e) u = storeChatEntryLog (getUserLog h u) e := by
  rw [storeChatEntry, getUserLog_setUserLog_self]

lemma getUserLog_storeChatEntry_other (h : ChatHistory) (u v : String)
    (e : ChatTurn) (hne : v ≠ u) :
    getUserLog (storeChatEntry h u e) v = getUserLog h v := by
  rw [storeChatEntry, getUserLog_setUserLog_other _ _ _ _ hne]

lemma storeFold_length_le (ops : List (String × ChatTurn)) :
    ∀ (h : ChatHistory), (∀ u, (getUserLog h u).length ≤ 100) →
      ∀ u, (getUserLog (ops.foldl (fun acc p => storeChatEntry acc p.1 p.2) h) u).length ≤ 100 := by
  induction ops with
  | nil => intro h hh u; exact hh u
  | cons p ops ih =>
      intro h hh u
      refine ih _ (fun v => ?_) u
      by_cases hv : v = p.1
      · subst hv
        rw [getUserLog_storeChatEntry_self]
        exact storeChatEntryLog_length _ _
      · rw [getUserLog_storeChatEntry_other _ _ _ _ hv]
        exact hh v

lemma getUserLog_foldl_store_same (es : List ChatTurn) (u : String) :
    ∀ h, getUserLog (es.foldl (fun acc e => storeChatEntry acc u e) h) u
      = es.foldl storeChatEntryLog (getUserLog h u) := by
  induction es with
  | nil => intro h; rfl
  | cons e es ih =>
      intro h
      rw [List.foldl_cons, List.foldl_cons, ih, getUserLog_storeChatEntry_self]

/-- Claim C3: starting from the fresh empty history, after any sequence of
stored chat turns every user's log holds at most 100 entries; and after
appending 150 turns for one user, exactly the most recent 100 remain, in
original append order (the oldest 50 evicted). -/
theorem c3_bounded_history (ops : List (String × ChatTurn)) (v u : String)
    (es : List ChatTurn) (h150 : es.length = 150) :
    (getUserLog (ops.foldl (fun acc p => storeChatEntry acc p.1 p.2)
        freshChatServiceHistory) v).length ≤ 100
    ∧ getUserLog (es.foldl (fun acc e => storeChatEntry acc u e)
        freshChatServiceHistory) u = es.drop 50 := by
  constructor
  · exact storeFold_length_le ops freshChatServiceHistory
      (fun _ => by simp [freshChatServiceHistory, getUserLog, lookupStr]) v
  · rw [getUserLog_foldl_store_same]
    have h0 : getUserLog freshChatServiceHistory u = [] := rfl
    rw [h0, foldl_storeChatEntryLog es [] (by simp)]
    simp [takeLast, h150]

/-- Witness for C3 with 150 copies of a concrete turn. -/
theorem c3_bounded_history_witness :
    (List.replicate 150 sampleTurn).length = 150
    ∧ (getUserLog ([("x", sampleTurn)].foldl
        (fun acc p => storeChatEntry acc p.1 p.2) freshChatServiceHistory) "x").length ≤ 100
    ∧ getUserLog ((List.replicate 150 sampleTurn).foldl
        (fun acc e => storeChatEntry acc "alice@example.com" e)
        freshChatServiceHistory) "alice@example.com"
      = (List.replicate 150 sampleTurn).drop 50 := by
  have h := c3_bounded_history [("x", sampleTurn)] "x" "alice@example.com"
    (List.replicate 150 sampleTurn) (by simp)
  exact ⟨by simp, h.1, h.2⟩

/-- Claim C4: given three accumulated tool calls whose middle arguments
string fails to parse as JSON, executing the buffer still executes the
first and third calls and reports their results (numbered 1 and 2 by the
execution loop), while only the second buffered call is reported as an
error chunk; one call's parse failure never prevents its siblings. -/
theorem c4_partial_failure_isolation
    (loads : String → Option JVal) (execCall : String → JVal → ExecOutcome)
    (e₁ e₂ e₃ : ToolCallEntry) (a₁ a₃ : JVal)
    (h₁ : loads e₁.arguments = some a₁)
    (h₂ : loads e₂.arguments = none)
    (h₃ : loads e₃.arguments = some a₃) :
    executeAndStreamToolCalls loads execCall [(0, e₁), (1, e₂), (2, e₃)] =
      invalidArgsLine e₂.name
        :: headerLine 2
        :: toolTitleLine 1 e₁.name
        :: toolArgsLine a₁
        :: toolResultLine (execCall e₁.name a₁)
        :: toolTitleLine 2 e₃.name
        :: toolArgsLine a₃
        :: toolResultLine (execCall e₃.name a₃)
        :: ["\n**Tool execution completed.**\n\n"] := by
  simp [executeAndStreamToolCalls, parseToolCallsPhase, h₁, h₂, h₃, execLoop]

/-- Witness for C4 at a concrete buffer whose middle call holds the
unparsable arguments string `oops`. -/
theorem c4_partial_failure_isolation_witness :
    executeAndStreamToolCalls
      (fun s => if s = "\x7b\x7d" then some (.obj []) else none)
      (fun nm _ => { success := true, result := some ("ran " ++ nm), error := none
                     tool_id := "t", tool_name := nm })
      [(0, { id := "a", type := "function", name := "t_alpha", arguments := "\x7b\x7d" }),
       (1, { id := "b", type := "function", name := "t_beta", arguments := "oops" }),
       (2, { id := "c", type := "function", name := "t_gamma", arguments := "\x7b\x7d" })] =
      ["\n\n🚫 **Error**: Invalid tool arguments for t_beta\n\n",
       "\n\n🔧 **Executing 2 tool call(s):**\n",
       "\n**1. Tool:** `t_alpha`\n",
       "**Arguments:** `\x7b\x7d`\n",
       "**✅ Result:** ran t_alpha\n",
       "\n**2. Tool:** `t_gamma`\n",
       "**Arguments:** `\x7b\x7d`\n",
       "**✅ Result:** ran t_gamma\n",
       "\n**Tool execution completed.**\n\n"] := by
  rw [c4_partial_failure_isolation
    (fun s => if s = "\x7b\x7d" then some (.obj []) else none)
    (fun nm _ => { success := true, result := some ("ran " ++ nm), error := none
                   tool_id := "t", tool_name := nm })
    { id := "a", type := "function", name := "t_alpha", arguments := "\x7b\x7d" }
    { id := "b", type := "function", name := "t_beta", arguments := "oops" }
    { id := "c", type := "function", name := "t_gamma", arguments := "\x7b\x7d" }
    (JVal.obj []) (JVal.obj []) rfl rfl rfl]
  decide

/-- Claim C5: for every provider streaming call that reaches a non-test
provider family, when the underlying provider request fails (non-2xx
status, connection reset or any other protocol-level exception, after
yielding any number of chunks), the stream yields exactly one terminal
`Error: ...` chunk carrying the failure description, appended after the
already-produced chunks, and then ends; `_real_llm_stream` is embedded as
a total function into a chunk list, so no exception crosses the adapter
boundary to `generate_response_stream`, whose output equals the adapter
output on this path. -/
theorem c5_adapter_errors_are_data
    (providers : List (String × ProviderInfo))
    (inGroup : String → String → Bool) (provider_id user_email : String)
    (p : ProviderInfo) (mockChunks chunks : List String) (msg : String)
    (hlook : lookupStr providers provider_id = some p)
    (hgrp : inGroup user_email p.required_group = true)
    (havail : p.available = true)
    (hfam : p.provider ≠ "test") :
    realLlmStream { chunks := chunks, failure := some msg }
        = chunks ++ ["Error: " ++ msg]
    ∧ generateResponseStream providers inGroup provider_id user_email
        mockChunks { chunks := chunks, failure := some msg }
        = chunks ++ ["Error: " ++ msg] := by
  constructor
  · rfl
  · simp [generateResponseStream, hlook, hgrp, havail, hfam, realLlmStream]

/-- Witness for C5: a provider whose streaming request fails with a 500
after two chunks yields those chunks plus one terminal error chunk. -/
theorem c5_adapter_errors_are_data_witness :
    realLlmStream { chunks := ["Hel", "lo"], failure := some "HTTP 500" }
        = ["Hel", "lo", "Error: HTTP 500"]
    ∧ generateResponseStream
        [("gpt4", { provider := "openai", available := true, required_group := "default" })]
        (fun _ _ => true) "gpt4" "user@example.com" []
        { chunks := ["Hel", "lo"], failure := some "HTTP 500" }
        = ["Hel", "lo", "Error: HTTP 500"] := by
  have h := c5_adapter_errors_are_data
    [("gpt4", { provider := "openai", available := true, required_group := "default" })]
    (fun _ _ => true) "gpt4" "user@example.com"
    { provider := "openai", available := true, required_group := "default" }
    [] ["Hel", "lo"] "HTTP 500" (by decide) (by decide) (by decide) (by decide)
  exact ⟨h.1, h.2⟩

lemma streamOpenaiLoop_event (loads : String → Option JVal)
    (execCall : String → JVal → ExecOutcome) (line : String)
    (rest : List String) (buf : ToolCallBuffer) (data : JVal)
    (h1 : pyStartsWith line "data: " = true)
    (h2 : pyStrip (pyDrop line 6) ≠ "[DONE]")
    (h3 : loads (pyDrop line 6) = some data) :
    streamOpenaiLoop loads execCall (line :: rest) buf =
      (processOpenAIEvent loads execCall data buf).1
        ++ streamOpenaiLoop loads execCall rest
            (processOpenAIEvent loads execCall data buf).2 := by
  simp [streamOpenaiLoop, h1, h2, h3]

lemma streamOpenaiLoop_skip (loads : String → Option JVal)
    (execCall : String → JVal → ExecOutcome) (line : String)
    (rest : List String) (buf : ToolCallBuffer)
    (h1 : pyStartsWith line "data: " = true)
    (h2 : pyStrip (pyDrop line 6) ≠ "[DONE]")
    (h3 : loads (pyDrop line 6) = none) :
    streamOpenaiLoop loads execCall (line :: rest) buf
      = streamOpenaiLoop loads execCall rest buf := by
  simp [streamOpenaiLoop, h1, h2, h3]

lemma streamOpenaiLoop_done (loads : String → Option JVal)
    (execCall : String → JVal → ExecOutcome) (line : String)
    (rest : List String) (buf : ToolCallBuffer)
    (h1 : pyStartsWith line "data: " = true)
    (h2 : pyStrip (pyDrop line 6) = "[DONE]") :
    streamOpenaiLoop loads execCall (line :: rest) buf = [] := by
  simp [streamOpenaiLoop, h1, h2]

/-- Claim C6: for the literal SSE lines
`data: {"choices":[{"delta":{"content":"Hel"}}]}`,
`data: {"choices":[{"delta":{"content":"lo"}}]}` and `data: [DONE]` — with
`json.loads` decoding the two payloads to their JSON trees — the
OpenAI-style stream adapter yields exactly the two text chunks `"Hel"`
then `"lo"` and nothing else; and any `data: ` line whose payload is not
valid JSON is skipped silently without terminating the stream. -/
theorem c6_sse_reassembly (loads : String → Option JVal)
    (execCall : String → JVal → ExecOutcome)
    (hHel : loads (pyDrop sseHelLine 6) = some (openaiContentEvent "Hel"))
    (hLo : loads (pyDrop sseLoLine 6) = some (openaiContentEvent "lo")) :
    streamOpenai loads execCall [sseHelLine, sseLoLine, sseDoneLine]
        = [.str "Hel", .str "lo"]
    ∧ ∀ (line : String) (rest : List String) (buf : ToolCallBuffer),
        pyStartsWith line "data: " = true →
        pyStrip (pyDrop line 6) ≠ "[DONE]" →
        loads (pyDrop line 6) = none →
        streamOpenaiLoop loads execCall (line :: rest) buf
          = streamOpenaiLoop loads execCall rest buf := by
  constructor
  · rw [streamOpenai,
      streamOpenaiLoop_event loads execCall _ _ _ _ (by decide) (by decide) hHel]
    have hp1 : processOpenAIEvent loads execCall (openaiContentEvent "Hel") []
        = ([JVal.str "Hel"], []) := rfl
    rw [hp1,
      streamOpenaiLoop_event loads execCall _ _ _ _ (by decide) (by decide) hLo]
    have hp2 : processOpenAIEvent loads execCall (openaiContentEvent "lo") []
        = ([JVal.str "lo"], []) := rfl
    rw [hp2, streamOpenaiLoop_done loads execCall _ _ _ (by decide) (by decide)]
    rfl
  · intro line rest buf h1 h2 h3
    exact streamOpenaiLoop_skip loads execCall line rest buf h1 h2 h3

/-- Witness for C6 with a concrete decoder for the two payloads: the
scenario yields exactly the two text chunks, and a malformed line is
skipped. -/
theorem c6_sse_reassembly_witness :
    streamOpenai
      (fun s => if s = ssePayloadHel then some (openaiContentEvent "Hel")
        else if s = ssePayloadLo then some (openaiContentEvent "lo") else none)
      (fun _ _ => { success := false, result := none, error := some "unused"
                    tool_id := "t", tool_name := "t" })
      [sseHelLine, sseLoLine, sseDoneLine] = [.str "Hel", .str "lo"]
    ∧ streamOpenaiLoop
        (fun s => if s = ssePayloadHel then some (openaiContentEvent "Hel")
          else if s = ssePayloadLo then some (openaiContentEvent "lo") else none)
        (fun _ _ => { success := false, result := none, error := some "unused"
                      tool_id := "t", tool_name := "t" })
        ("data: notjson" :: [sseDoneLine]) []
      = streamOpenaiLoop
          (fun s => if s = ssePayloadHel then some (openaiContentEvent "Hel")
            else if s = ssePayloadLo then some (openaiContentEvent "lo") else none)
          (fun _ _ => { success := false, result := none, error := some "unused"
                        tool_id := "t", tool_name := "t" })
          [sseDoneLine] [] := by
  have h := c6_sse_reassembly
    (fun s => if s = ssePayloadHel then some (openaiContentEvent "Hel")
      else if s = ssePayloadLo then some (openaiContentEvent "lo") else none)
    (fun _ _ => { success := false, result := none, error := some "unused"
                  tool_id := "t", tool_name := "t" })
    rfl rfl
  exact ⟨h.1, h.2 "data: notjson" [sseDoneLine] [] (by decide) (by decide) rfl⟩

/-- Claim C7, counterexample: the claim fails at the requested limit 0.
For a user with one stored entry, `get_chat_history` with `limit = 0`
returns the whole log (Python `if limit` is false for 0), not the last 0
entries the claim prescribes. -/
theorem c7_history_query_counterexample :
    getChatHistory sampleHistory "alice@example.com" 0 = [sampleTurn]
    ∧ takeLast (Int.toNat 0) (getUserLog sampleHistory "alice@example.com") = []
    ∧ getChatHistory sampleHistory "alice@example.com" 0
        ≠ takeLast (Int.toNat 0) (getUserLog sampleHistory "alice@example.com") := by
  refine ⟨by decide, by decide, by decide⟩

/-- Claim C7 (amended): for every user and every requested limit of at
least 1, the history query returns the stored entries most-recent-last,
truncated to the last `limit` entries of the log in original order; a
limit of 0 instead returns the entire log. -/
theorem c7_history_query_amended (h : ChatHistory) (user : String)
    (limit : Int) (hpos : 1 ≤ limit) :
    getChatHistory h user limit = takeLast limit.toNat (getUserLog h user)
    ∧ getChatHistory h user 0 = getUserLog h user := by
  constructor
  · have hne : limit ≠ 0 := by omega
    rw [getChatHistory]
    simp only [hne, if_true, ne_eq, not_false_eq_true, if_pos]
    rw [pySliceLast, takeLast]
    have hlt : -limit < 0 := by omega
    rw [if_pos hlt]
    congr 1
    rcases Int.le_total ((getUserLog h user).length + -limit) 0 with hc | hc
    · rw [max_eq_right hc]
      omega
    · rw [max_eq_left hc]
      omega
  · rw [getChatHistory]
    simp

/-- Witness for the amended C7 at a concrete one-entry history with
limit 1. -/
theorem c7_history_query_witness :
    getChatHistory sampleHistory "alice@example.com" 1
        = takeLast (Int.toNat 1) (getUserLog sampleHistory "alice@example.com")
    ∧ getChatHistory sampleHistory "alice@example.com" 0
        = getUserLog sampleHistory "alice@example.com" := by
  exact c7_history_query_amended sampleHistory "alice@example.com" 1 (by decide)

/-- Claim C9: the REST `/history` endpoint constructs a brand-new
`ChatService` (whose `chat_history` dict is empty) on every request, so
for every user and every limit it returns the empty history list,
regardless of previously processed turns. -/
theorem c9_fresh_history_endpoint (user_email : String) (limit : Int) :
    apiGetChatHistory user_email limit = [] := by
  rw [apiGetChatHistory, getChatHistory]
  by_cases hl : limit ≠ 0 <;>
    simp [hl, pySliceLast, freshChatServiceHistory, getUserLog, lookupStr]

/-- Claim C10: for every provider whose availability flag is false and
every user who is a member of the provider's required group,
`validate_provider_access` returns `has_access = false` while its `reason`
field is the string `Access granted` — the reason reflects only group
membership, never the availability conjunct. -/
theorem c10_unavailable_but_access_granted
    (providers : List (String × ProviderInfo))
    (inGroup : String → String → Bool) (provider_id user_email : String)
    (p : ProviderInfo)
    (hlook : lookupStr providers provider_id = some p)
    (havail : p.available = false)
    (hmember : inGroup user_email p.required_group = true) :
    validateProviderAccess providers inGroup provider_id user_email
      = { provider_id := provider_id, has_access := false, reason := "Access granted" } := by
  simp [validateProviderAccess, hlook, hmember, havail]

/-- Witness for C10: an unavailable provider whose required group the user
belongs to. -/
theorem c10_unavailable_but_access_granted_witness :
    validateProviderAccess
      [("gpt4", { provider := "openai", available := false, required_group := "mcp_users" })]
      (fun _ _ => true) "gpt4" "user@example.com"
      = { provider_id := "gpt4", has_access := false, reason := "Access granted" } := by
  exact c10_unavailable_but_access_granted
    [("gpt4", { provider := "openai", available := false, required_group := "mcp_users" })]
    (fun _ _ => true) "gpt4" "user@example.com"
    { provider := "openai", available := false, required_group := "mcp_users" }
    (by decide) (by decide) (by decide)

/-- Claim C8, counterexample: `_get_mcp_client` performs its
check-then-create without any synchronization, and the connection
establishment (`await client.__aenter__()`) is a suspension point between
the cache check and the cache store.  In the schedule where ten concurrent
executions of the same tool all run their cache check before any
connection completes, every one of them establishes a connection: ten
transport connects, not the single one the claim requires. -/
theorem c8_pool_counterexample :
    (runPoolSchedule (interleavedSchedule 10)).connectCount = 10
    ∧ (10 : Nat) ≠ 1 := by
  refine ⟨by decide, by decide⟩

lemma foldl_poolStep_pairs_cached (ts : List Nat) :
    ∀ σ : PoolState, σ.cachedClient.isSome = true →
      (∀ t ∈ ts, σ.phases t ≠ .connecting) →
      ((ts.flatMap (fun i => [i, i])).foldl poolStep σ).connectCount = σ.connectCount
      ∧ ((ts.flatMap (fun i => [i, i])).foldl poolStep σ).cachedClient = σ.cachedClient := by
  induction ts with
  | nil => intro σ _ _; exact ⟨rfl, rfl⟩
  | cons t ts ih =>
      intro σ hc hp
      have hflat : ((t :: ts).flatMap (fun i => [i, i]))
          = t :: t :: (ts.flatMap (fun i => [i, i])) := rfl
      rw [hflat, List.foldl_cons, List.foldl_cons]
      have hpt : σ.phases t ≠ .connecting := hp t (by simp)
      cases hph : σ.phases t with
      | ready =>
          have h1 : poolStep σ t = { σ with phases := setPhase σ.phases t .finished } := by
            simp [poolStep, hph, hc]
          rw [h1]
          have h2 : poolStep { σ with phases := setPhase σ.phases t .finished } t
              = { σ with phases := setPhase σ.phases t .finished } := by
            simp [poolStep, setPhase]
          rw [h2]
          refine ih _ hc ?_
          intro t' ht'
          by_cases he : t' = t
          · subst he
            simp [setPhase]
          · simp only [setPhase, he, if_false]
            exact hp t' (by simp [ht'])
      | connecting => exact absurd hph hpt
      | finished =>
          have h1 : poolStep σ t = σ := by simp [poolStep, hph]
          rw [h1, h1]
          exact ih _ hc (fun t' ht' => hp t' (by simp [ht']))

/-- Claim C8 (amended): the cached-client pool gives the single-connection
guarantee only when first uses are serialized: for any `n ≥ 1` executions
of the same server-backed tool where each runs to completion before the
next begins, exactly one transport connection is established, the client
created by the first execution stays cached, and all later executions
reuse it.  Under concurrent first use the unguarded check-then-create can
establish one connection per execution (see the counterexample). -/
theorem c8_pool_amended (n : Nat) (h : 1 ≤ n) :
    (runPoolSchedule (serializedSchedule n)).connectCount = 1
    ∧ (runPoolSchedule (serializedSchedule n)).cachedClient = some 0 := by
  obtain ⟨m, rfl⟩ : ∃ m, n = m + 1 := ⟨n - 1, by omega⟩
  rw [runPoolSchedule, serializedSchedule, List.range_succ_eq_map,
    List.flatMap_cons, List.foldl_append]
  have hinit : List.foldl poolStep initPoolState [0, 0]
      = { cachedClient := some 0, connectCount := 1
          phases := setPhase (setPhase (fun _ => TaskPhase.ready) 0 .connecting) 0 .finished } := rfl
  rw [hinit]
  have hpairs := foldl_poolStep_pairs_cached ((List.range m).map Nat.succ)
    { cachedClient := some 0, connectCount := 1
      phases := setPhase (setPhase (fun _ => TaskPhase.ready) 0 .connecting) 0 .finished }
    rfl (by
      intro t ht
      obtain ⟨k, _, rfl⟩ := List.mem_map.mp ht
      simp [setPhase])
  exact ⟨hpairs.1, hpairs.2⟩

/-- Witness for the amended C8 with three serialized executions. -/
theorem c8_pool_amended_witness :
    (1 : Nat) ≤ 3
    ∧ (runPoolSchedule (serializedSchedule 3)).connectCount = 1
    ∧ (runPoolSchedule (serializedSchedule 3)).cachedClient = some 0 := by
  have h := c8_pool_amended 3 (by decide)
  exact ⟨by decide, h.1, h.2⟩
